import Mathlib

/-!
Verification development for the wireless perimeter-sensing simulation
(`src/simulation/models.py`, `src/simulation/engine.py`,
`src/simulation/config_loader.py`, and the legacy `src/src/models.py`).

Times, probabilities and confidences are embedded as rationals (`ℚ`);
Python floats never overflow in the regimes the claims quantify over, and
no claim depends on floating-point rounding.  Randomness is embedded as
explicit oracle streams: wherever the Python code calls `random.*`, the
Lean definition takes the drawn value as an input, so every theorem
quantifies over all possible draw sequences.
-/

namespace LiveInLabs

/-- `EventType` enum from `simulation/models.py`. -/
inductive EventType where
  | intruder
  | noise
deriving DecidableEq, Repr

/-- `SensorEvent` dataclass from `simulation/models.py`. -/
structure SensorEvent where
  event_id : Nat
  event_type : EventType
  time : ℚ
  posX : ℚ
  posY : ℚ
  duration : ℚ
deriving DecidableEq, Repr

/-- `DetectionRecord` dataclass from `simulation/models.py`. -/
structure DetectionRecord where
  event_id : Nat
  node_id : String
  detection_time : ℚ
  confirmed : Bool
  used_p2p : Bool
  p2p_messages_sent : Nat
  gateway_was_up : Bool
  latency : ℚ
  is_true_positive : Bool
  confidence : ℚ
deriving DecidableEq, Repr

/-- `SimulationConfig` dataclass from `simulation/config_loader.py`,
with the dataclass defaults. -/
structure SimulationConfig where
  run_id : String := "default"
  random_seed : Int := 42
  event_count : Int := 1000
  intruder_probability : ℚ := 3/10
  event_interval_mean : ℚ := 8
  outer_ring_nodes : Int := 8
  inner_ring_nodes : Int := 8
  outer_ring_radius : ℚ := 23
  inner_ring_radius : ℚ := 14
  inner_ring_offset_deg : ℚ := 45/2
  sensor_range : ℚ := 15
  p2p_range : ℚ := 30
  confirm_threshold : ℚ := 4/5
  verify_threshold : ℚ := 7/10
  verification_timeout : ℚ := 3
  boar_confidence_mean : ℚ := 17/20
  boar_confidence_std : ℚ := 2/25
  noise_confidence_mean : ℚ := 7/20
  noise_confidence_std : ℚ := 3/20
  loss_base : ℚ := 0
  loss_per_meter : ℚ := 1/400
  delay_base : ℚ := 1/10
  delay_per_meter : ℚ := 1/10000
  delay_jitter : ℚ := 1/20
  msg_size_verify_req : Int := 64
  msg_size_verify_resp : Int := 32
  msg_size_uplink : Int := 51
  gateway_up_duration_mean : ℚ := 1800
  gateway_down_duration_mean : ℚ := 300

/-- `validate_config` from `simulation/config_loader.py`: the checks in
source order, each appending its fixed message to the error list. -/
def validate_config (c : SimulationConfig) : List String :=
  (if c.event_count < 1 then ["event_count must be at least 1"] else []) ++
  (if c.event_count > 100000 then ["event_count cannot exceed 100000"] else []) ++
  (if ¬(0 ≤ c.intruder_probability ∧ c.intruder_probability ≤ 1) then
    ["intruder_probability must be between 0 and 1"] else []) ++
  (if c.outer_ring_nodes < 1 ∨ c.inner_ring_nodes < 1 then
    ["Ring nodes must be at least 1"] else []) ++
  (if c.outer_ring_radius ≤ c.inner_ring_radius then
    ["outer_ring_radius must be greater than inner_ring_radius"] else []) ++
  (if ¬(0 ≤ c.confirm_threshold ∧ c.confirm_threshold ≤ 1) then
    ["confirm_threshold must be between 0 and 1"] else []) ++
  (if ¬(0 ≤ c.verify_threshold ∧ c.verify_threshold ≤ 1) then
    ["verify_threshold must be between 0 and 1"] else []) ++
  (if c.verify_threshold > c.confirm_threshold then
    ["verify_threshold should be less than confirm_threshold"] else [])

/-! ## Gateway (`Gateway.receive_uplink`, both the `simulation/models.py`
and the legacy `src/models.py` version) -/

/-- One entry of `Gateway.uplinks_received`. -/
structure UplinkLogEntry where
  node_id : String
  event_id : Nat
  time : ℚ
  delivered : Bool
deriving DecidableEq

/-- The mutable state of `Gateway`: its availability flag and its uplink log.
(`env` and `config` carry no gateway state; `is_up` is mutated only by the
availability process, which is not involved in a single `receive_uplink` call.) -/
structure GatewayState where
  is_up : Bool
  uplinks_received : List UplinkLogEntry
deriving DecidableEq

/-- `Gateway.receive_uplink` from `simulation/models.py` (lines 101-110):
reads `is_up`, appends one log entry carrying it, returns it. -/
def receive_uplink (gw : GatewayState) (node_id : String) (event_id : Nat)
    (time : ℚ) : Bool × GatewayState :=
  let delivered := gw.is_up
  (delivered,
   { gw with uplinks_received :=
      gw.uplinks_received ++ [{ node_id := node_id, event_id := event_id,
                                time := time, delivered := delivered }] })

/-- `Gateway.receive_uplink` from the legacy `src/models.py` (lines 93-110):
an if/else on `is_up`, each branch appending one entry and returning. -/
def receive_uplink_legacy (gw : GatewayState) (node_id : String) (event_id : Nat)
    (time : ℚ) : Bool × GatewayState :=
  if gw.is_up then
    (true,
     { gw with uplinks_received :=
        gw.uplinks_received ++ [{ node_id := node_id, event_id := event_id,
                                  time := time, delivered := true }] })
  else
    (false,
     { gw with uplinks_received :=
        gw.uplinks_received ++ [{ node_id := node_id, event_id := event_id,
                                  time := time, delivered := false }] })

/-! ## Image analyzer and uplink (`ImageConfidenceGenerator.analyze`,
`Node._send_uplink`) -/

/-- `ImageAnalysisResult` dataclass from `simulation/models.py`. -/
structure ImageAnalysisResult where
  classification : String
  confidence : ℚ
  timestamp : ℚ
deriving DecidableEq

/-- `ImageConfidenceGenerator.analyze` from `simulation/models.py`
(lines 65-76).  `rawDraw` is the value `random.gauss(...)` returned (the
branch only selects which mean/std the draw used, which the oracle already
reflects); the code then clamps it with `max(0.0, min(1.0, conf))`. -/
def analyze (event_type : EventType) (rawDraw : ℚ) : ImageAnalysisResult :=
  { classification := if event_type == EventType.intruder then "wild_boar" else "other"
    confidence := max 0 (min 1 rawDraw)
    timestamp := 0 }

/-- `Node._send_uplink` from `simulation/models.py` (lines 276-295): query the
gateway at the current instant `now` and build the `DetectionRecord` that
`Network.report_detection` appends to the run's detection log.
`report_detection` is the only writer of that log, and `_send_uplink` its only
caller. -/
def send_uplink (node_id : String) (now : ℚ) (gw : GatewayState) (event : SensorEvent)
    (confidence : ℚ) (used_p2p : Bool) (p2p_msgs : Nat) : DetectionRecord × GatewayState :=
  let r := receive_uplink gw node_id event.event_id now
  ({ event_id := event.event_id
     node_id := node_id
     detection_time := now
     confirmed := true
     used_p2p := used_p2p
     p2p_messages_sent := p2p_msgs
     gateway_was_up := r.1
     latency := now - event.time
     is_true_positive := event.event_type == EventType.intruder
     confidence := confidence }, r.2)

/-- The three branches of `Node._process_logic` (lines 227-238): Tier 1
immediate uplink, Tier 2 verification, Tier 3 ignore. -/
inductive TierDecision where
  | uplinkNow
  | verify
  | ignore
deriving DecidableEq

/-- The decision policy of `Node._process_logic`: `confidence >=
confirm_threshold` is Tier 1, else `confidence >= verify_threshold` is
Tier 2, else Tier 3. -/
def tier_decision (c : SimulationConfig) (confidence : ℚ) : TierDecision :=
  if confidence ≥ c.confirm_threshold then TierDecision.uplinkNow
  else if confidence ≥ c.verify_threshold then TierDecision.verify
  else TierDecision.ignore

/-! ## Topology (`engine.compute_neighbors`) -/

/-- The adjacency test of `compute_neighbors` (engine.py lines 50-57):
`sqrt((x2-x1)^2 + (y2-y1)^2) <= p2p_range`, written squared so the embedding
stays inside `ℚ` (equivalent for the nonnegative ranges the code runs with). -/
def withinRange (range : ℚ) (p q : ℚ × ℚ) : Bool :=
  decide ((p.1 - q.1) ^ 2 + (p.2 - q.2) ^ 2 ≤ range ^ 2)

/-- One `neighbors[nid].append(...)` call: append `val` to the list stored
under `key` (a no-op when `key` is absent, the dict lookup cannot fail in the
source since every node id is a key). -/
def addNeighbor (m : List (String × List String)) (key val : String) :
    List (String × List String) :=
  m.map fun e => if e.1 = key then (e.1, e.2 ++ [val]) else e

/-- The body of the double loop of `compute_neighbors` for one close pair
`(nid1, nid2)`: `neighbors[nid1].append(nid2); neighbors[nid2].append(nid1)`. -/
def applyPair (m : List (String × List String)) (pr : String × String) :
    List (String × List String) :=
  addNeighbor (addNeighbor m pr.1 pr.2) pr.2 pr.1

/-- The ordered pairs `(nid1, nid2)` the double loop of `compute_neighbors`
visits with `dist <= p2p_range`: `nid1` earlier in the node list, `nid2` later. -/
def closePairs (range : ℚ) : List (String × ℚ × ℚ) → List (String × String)
  | [] => []
  | p :: rest =>
      ((rest.filter fun q => withinRange range p.2 q.2).map fun q => (p.1, q.1)) ++
        closePairs range rest

/-- `compute_neighbors` from `engine.py` (lines 44-59): start from
`{nid: [] for nid in positions}` and run the double append loop over all
close pairs. -/
def compute_neighbors (l : List (String × ℚ × ℚ)) (range : ℚ) :
    List (String × List String) :=
  (closePairs range l).foldl applyPair (l.map fun p => (p.1, ([] : List String)))

/-- Dictionary lookup `neighbors[a]` (empty when absent). -/
def neighborsOf (m : List (String × List String)) (a : String) : List String :=
  ((m.find? fun e => e.1 == a).map fun e => e.2).getD []

/-- Whether `a` is a key of the dictionary. -/
def hasKey (m : List (String × List String)) (a : String) : Bool :=
  (m.find? fun e => e.1 == a).isSome

/-- The receivers `Network.p2p_broadcast` (models.py lines 158-179) schedules
a delivery for: the loop runs over `sender.neighbors` only, skips ids not in
`self.nodes`, and skips receivers whose loss draw came in below the loss
probability (`lost`). -/
def p2p_recipients (neighbors : List String) (nodeIds : List String)
    (lost : String → Bool) : List String :=
  neighbors.filter fun nid => decide (nid ∈ nodeIds) && !(lost nid)

/-! ## Metrics (`engine.compute_metrics`) -/

/-- Python's `round(x, 4)` on the rates (engine.py lines 198-199): round to
the nearest multiple of `1/10000`.  (Python rounds exact halves to even,
`round` here rounds them up; no claim depends on the tie direction.) -/
def pyRound4 (q : ℚ) : ℚ := (round (q * 10000) : ℚ) / 10000

/-- `sorted(detections, key=lambda x: x.detection_time)`: Python's stable
sort, embedded as the (stable) `List.mergeSort`. -/
def sortByDetectionTime (ds : List DetectionRecord) : List DetectionRecord :=
  ds.mergeSort fun a b => decide (a.detection_time ≤ b.detection_time)

/-- The dedup loop of `compute_metrics` (engine.py lines 162-166): walk the
sorted list, keep a record only when its `event_id` was not seen before. -/
def dedupFirstByEventId : List DetectionRecord → List Nat → List DetectionRecord
  | [], _ => []
  | d :: rest, seen =>
      if d.event_id ∈ seen then dedupFirstByEventId rest seen
      else d :: dedupFirstByEventId rest (d.event_id :: seen)

/-- `unique_detections` of `compute_metrics`: first record per `event_id` in
`detection_time` order. -/
def unique_detections (ds : List DetectionRecord) : List DetectionRecord :=
  dedupFirstByEventId (sortByDetectionTime ds) []

/-- `tp_unique` of `compute_metrics` (line 168). -/
def tp_unique (ds : List DetectionRecord) : List DetectionRecord :=
  (unique_detections ds).filter fun d => d.is_true_positive

/-- `fp_unique` of `compute_metrics` (line 169). -/
def fp_unique (ds : List DetectionRecord) : List DetectionRecord :=
  (unique_detections ds).filter fun d => !d.is_true_positive

/-- `total_intruders` of `compute_metrics` (line 157). -/
def total_intruders_of (events : List SensorEvent) : Nat :=
  (events.filter fun e => e.event_type == EventType.intruder).length

/-- `total_noise = len(events) - total_intruders` (line 158). -/
def total_noise_of (events : List SensorEvent) : Nat :=
  events.length - total_intruders_of events

/-- The fields of the metrics dictionary the claims are about (the latency /
p2p / outage statistics of engine.py lines 176-208 are carried through the
`latencies` list; the aggregate percentile statistics are not needed by any
claim). -/
structure Metrics where
  total_events : Nat
  total_intruders : Nat
  total_noise : Nat
  total_detections : Nat
  unique_detections_count : Nat
  true_positives : Nat
  false_positives : Nat
  false_positive_rate : ℚ
  detection_rate : ℚ
  latencies : List ℚ
deriving DecidableEq

/-- `compute_metrics` from `engine.py` (lines 151-209). -/
def compute_metrics (events : List SensorEvent) (detections : List DetectionRecord) :
    Metrics :=
  let ti := total_intruders_of events
  let tn := total_noise_of events
  let uniq := unique_detections detections
  let tp := tp_unique detections
  let fp := fp_unique detections
  let fpr : ℚ := if tn > 0 then (fp.length : ℚ) / (tn : ℚ) else 0
  let dr : ℚ := if ti > 0 then (tp.length : ℚ) / (ti : ℚ) else 0
  { total_events := events.length
    total_intruders := ti
    total_noise := tn
    total_detections := detections.length
    unique_detections_count := uniq.length
    true_positives := tp.length
    false_positives := fp.length
    false_positive_rate := pyRound4 fpr
    detection_rate := pyRound4 dr
    latencies := uniq.map fun d => d.latency }

/-! ## Workload generator (`SimulationEnvironment._event_generator`) -/

/-- The random draws one run consumes, as oracle streams indexed by the event
counter.  `interval` is the `random.expovariate(...)` inter-arrival draw,
`intruderDraw` the outcome of `random.random() < intruder_probability`,
`posXDraw`/`posYDraw` the position that results from the polar draws (the
source converts angle/radius with `cos`/`sin`; the resulting coordinates enter
the oracle directly, no claim depends on them), `durationDraw` the
`random.uniform(1, 5)` draw. -/
structure DrawStream where
  interval : Nat → ℚ
  intruderDraw : Nat → Bool
  posXDraw : Nat → ℚ
  posYDraw : Nat → ℚ
  durationDraw : Nat → ℚ

/-- `SimulationEnvironment._event_generator` (models.py lines 311-337) run
under `env.run(until=horizon)` (engine.py line 126): each iteration sleeps the
drawn interval and then emits the next event.  A wake-up scheduled at or past
the horizon never runs (the `until` event of the runner fires first, with
urgent priority, even at the exact same instant), so generation stops at the
first inter-arrival step that reaches the horizon. -/
def event_generator_from (s : DrawStream) (horizon : ℚ) :
    Nat → ℚ → Nat → List SensorEvent
  | _, _, 0 => []
  | k, now, n + 1 =>
      let t := now + s.interval k
      if t < horizon then
        { event_id := k
          event_type := if s.intruderDraw k then EventType.intruder else EventType.noise
          time := t
          posX := s.posXDraw k
          posY := s.posYDraw k
          duration := s.durationDraw k } :: event_generator_from s horizon (k + 1) t n
      else []

/-- The full event log of a run: `generate_events(config.event_count)` starting
from counter 0 at virtual time 0. -/
def event_generator (s : DrawStream) (count : Nat) (horizon : ℚ) : List SensorEvent :=
  event_generator_from s horizon 0 0 count

/-- Sum of the inter-arrival draws `s.interval k, ..., s.interval (k+n-1)`. -/
def sumIntervalsFrom (s : DrawStream) (k : Nat) : Nat → ℚ
  | 0 => 0
  | n + 1 => s.interval k + sumIntervalsFrom s (k + 1) n

/-! ## `engine.run_simulation` -/

/-- The result value of `run_simulation`: the failure dictionary of engine.py
lines 74-79 or the success dictionary of lines 136-148.  The success payload
carries the metrics aggregate; the echoed config, wall-clock duration,
baseline and topology summary of the success dictionary play no role in any
claim and are determined by the config alone. -/
inductive RunResult where
  | failure (errors : List String) (run_id : String)
  | success (run_id : String) (metrics : Metrics)
deriving DecidableEq

/-- The keys of the dictionary `run_simulation` returns, in source order. -/
def RunResult.keys : RunResult → List String
  | .failure _ _ => ["success", "errors", "run_id"]
  | .success _ _ => ["success", "run_id", "config", "execution_time_seconds",
      "metrics", "baseline", "topology"]

/-- The `success` flag of the returned dictionary. -/
def RunResult.successFlag : RunResult → Bool
  | .failure _ _ => false
  | .success _ _ => true

/-- `run_simulation` from `engine.py` (lines 62-148): validate, and on any
validation error return the failure dictionary before any scheduling; else run
the simulation to the horizon `event_count * event_interval_mean + 200` and
compute the metrics.  The detection log accumulated by the node/network
processes during the run enters as the `detections` argument (it is a function
of the seeded draws; every theorem below quantifies over it). -/
def run_simulation (cfg : SimulationConfig) (s : DrawStream)
    (detections : List DetectionRecord) : RunResult :=
  let errors := validate_config cfg
  if errors.isEmpty then
    let horizon : ℚ := (cfg.event_count : ℚ) * cfg.event_interval_mean + 200
    let events := event_generator s cfg.event_count.toNat horizon
    RunResult.success cfg.run_id (compute_metrics events detections)
  else
    RunResult.failure errors cfg.run_id

/-! ## The Tier-2 verification wait (`Node._run_verification_protocol`,
`Node.receive_p2p_message`) over the event queue

The scheduler itself is the `simpy` library, not code under `src/`; it is
modelled from spec section 4.1: a priority queue of
`(wake_time, insertion_sequence, continuation)` entries popped in
lexicographic order, FIFO for equal wake times.  Triggering an event handle
marks it triggered at once and schedules its callbacks as a fresh queue entry
at the current instant; the composite wait `handle | timeout` resumes the
suspended process through such a scheduled entry when its first member fires.
The node-side effects of each entry are translated from
`simulation/models.py`. -/

/-- The queue entries that can wake up during a Tier-2 verification wait. -/
inductive VerifAction where
  /-- A `VERIFY_RESP` delivery delay elapses: `Network._deliver_p2p` calls
  `receiver.receive_p2p_message("VERIFY_RESP", ...)` (models.py lines 181-183,
  270-274). -/
  | deliverResp
  /-- The `env.timeout(verification_timeout)` of the wait fires. -/
  | timeoutFire
  /-- The succeeded verification handle is processed by the scheduler. -/
  | handleFire
  /-- The suspended `_run_verification_protocol` resumes after its composite
  wait resolved (models.py lines 250-254). -/
  | resumeNode
deriving DecidableEq

/-- State of one Tier-2 verification wait: virtual clock, insertion counter,
pending queue, `verification_event.triggered`, whether the composite wait
already resolved (scheduled the resumption), `pending_confirmations`, and the
detection log. -/
structure VerifState where
  now : ℚ
  nextSeq : Nat
  queue : List (ℚ × Nat × VerifAction)
  handleTriggered : Bool
  conditionResolved : Bool
  pending_confirmations : Nat
  records : List DetectionRecord

/-- Lexicographic order on `(wake_time, insertion_sequence)`. -/
def entryLE (a b : ℚ × Nat × VerifAction) : Bool :=
  decide (a.1 < b.1) || (decide (a.1 = b.1) && decide (a.2.1 ≤ b.2.1))

/-- Pop the queue entry with the least `(wake_time, insertion_sequence)`. -/
def popMin : List (ℚ × Nat × VerifAction) →
    Option ((ℚ × Nat × VerifAction) × List (ℚ × Nat × VerifAction))
  | [] => none
  | e :: rest =>
      match popMin rest with
      | none => some (e, [])
      | some (m, rest₂) => if entryLE e m then some (e, rest) else some (m, e :: rest₂)

/-- The `DetectionRecord` of a Tier-2 escalation (`_send_uplink` with
`used_p2p=True`, `p2p_msgs=1`, models.py line 254). -/
def verifiedUplinkRecord (node_id : String) (event : SensorEvent) (confidence : ℚ)
    (gwUp : Bool) (now : ℚ) : DetectionRecord :=
  (send_uplink node_id now { is_up := gwUp, uplinks_received := [] } event
    confidence true 1).1

/-- Execute one woken-up entry (the clock is already at its wake time). -/
def execVerifAction (node_id : String) (event : SensorEvent) (confidence : ℚ)
    (gwUp : Bool) (st : VerifState) : VerifAction → VerifState
  | VerifAction.deliverResp =>
      -- receive_p2p_message "VERIFY_RESP": only when the handle is not yet
      -- triggered, bump pending_confirmations and succeed the handle, which
      -- schedules the handle's processing at the current instant.
      if st.handleTriggered then st
      else
        { st with
          handleTriggered := true
          pending_confirmations := st.pending_confirmations + 1
          queue := st.queue ++ [(st.now, st.nextSeq, VerifAction.handleFire)]
          nextSeq := st.nextSeq + 1 }
  | VerifAction.timeoutFire =>
      -- First member of the composite wait to fire resolves it and schedules
      -- the suspended process's resumption at the current instant.
      if st.conditionResolved then st
      else
        { st with
          conditionResolved := true
          queue := st.queue ++ [(st.now, st.nextSeq, VerifAction.resumeNode)]
          nextSeq := st.nextSeq + 1 }
  | VerifAction.handleFire =>
      if st.conditionResolved then st
      else
        { st with
          conditionResolved := true
          queue := st.queue ++ [(st.now, st.nextSeq, VerifAction.resumeNode)]
          nextSeq := st.nextSeq + 1 }
  | VerifAction.resumeNode =>
      -- models.py lines 252-254: `if self.verification_event.triggered:`
      -- escalate to uplink with used_p2p=True; else fall through (silent drop).
      if st.handleTriggered then
        { st with records :=
            st.records ++ [verifiedUplinkRecord node_id event confidence gwUp st.now] }
      else st

/-- One scheduler step: pop the earliest entry, advance the clock, run it. -/
def stepVerif (node_id : String) (event : SensorEvent) (confidence : ℚ) (gwUp : Bool)
    (st : VerifState) : VerifState :=
  match popMin st.queue with
  | none => st
  | some ((t, _, a), rest) =>
      execVerifAction node_id event confidence gwUp { st with now := t, queue := rest } a

/-- Run `fuel` scheduler steps. -/
def runVerif (node_id : String) (event : SensorEvent) (confidence : ℚ) (gwUp : Bool) :
    Nat → VerifState → VerifState
  | 0, st => st
  | n + 1, st => runVerif node_id event confidence gwUp n
      (stepVerif node_id event confidence gwUp st)

/-- The wait of a Tier-2 node whose verification handle is triggered at exactly
the virtual time `T` at which its verification timeout fires: the queue holds
the timeout wake-up and the `VERIFY_RESP` delivery, both at time `T`, in either
FIFO order (`timeoutFirst` picks which was inserted earlier). -/
def tieState (T : ℚ) (timeoutFirst : Bool) : VerifState :=
  { now := 0
    nextSeq := 2
    queue :=
      if timeoutFirst then
        [(T, 0, VerifAction.timeoutFire), (T, 1, VerifAction.deliverResp)]
      else
        [(T, 0, VerifAction.deliverResp), (T, 1, VerifAction.timeoutFire)]
    handleTriggered := false
    conditionResolved := false
    pending_confirmations := 0
    records := [] }

/-- The wait of a Tier-2 node that broadcast to an empty neighbor set: the
queue holds only its verification-timeout wake-up (no delivery was ever
scheduled). -/
def isolatedState (t₀ dur : ℚ) : VerifState :=
  { now := t₀
    nextSeq := 1
    queue := [(t₀ + dur, 0, VerifAction.timeoutFire)]
    handleTriggered := false
    conditionResolved := false
    pending_confirmations := 0
    records := [] }

/-! ## Concrete sample inputs (used to instantiate theorems with hypotheses) -/

/-- A draw stream all of whose draws are zero / false. -/
def zeroStream : DrawStream :=
  { interval := fun _ => 0
    intruderDraw := fun _ => false
    posXDraw := fun _ => 0
    posYDraw := fun _ => 0
    durationDraw := fun _ => 1 }

/-- A draw stream whose every inter-arrival draw is 300 virtual seconds. -/
def longGapStream : DrawStream :=
  { interval := fun _ => 300
    intruderDraw := fun _ => true
    posXDraw := fun _ => 0
    posYDraw := fun _ => 0
    durationDraw := fun _ => 1 }

/-- A concrete sensor event at virtual time 1. -/
def sampleEvent : SensorEvent :=
  { event_id := 0
    event_type := EventType.intruder
    time := 1
    posX := 0
    posY := 0
    duration := 2 }

/-- A later detection of event 5 (detection time 10). -/
def sampleDetLate : DetectionRecord :=
  { event_id := 5
    node_id := "outer_0"
    detection_time := 10
    confirmed := true
    used_p2p := false
    p2p_messages_sent := 0
    gateway_was_up := true
    latency := 3
    is_true_positive := true
    confidence := 9/10 }

/-- An earlier detection of event 5 (detection time 7). -/
def sampleDetEarly : DetectionRecord :=
  { event_id := 5
    node_id := "inner_2"
    detection_time := 7
    confirmed := true
    used_p2p := true
    p2p_messages_sent := 1
    gateway_was_up := false
    latency := 0
    is_true_positive := true
    confidence := 3/4 }

/-- An intruder event with id 5 at virtual time 7. -/
def sampleIntruderEvent : SensorEvent :=
  { event_id := 5
    event_type := EventType.intruder
    time := 7
    posX := 1
    posY := 2
    duration := 2 }

/-! # Theorems -/

example : validate_config {} = [] := by norm_num [validate_config]

/-- C8: every call to `Gateway.receive_uplink` — in both the
`simulation/models.py` version and the legacy `src/models.py` version —
returns the gateway's `is_up` value at that instant and appends exactly one
uplink-attempt log entry (carrying that value), whether the gateway is up or
down. -/
theorem receive_uplink_returns_is_up_and_logs_once (gw : GatewayState)
    (n : String) (e : Nat) (t : ℚ) :
    (receive_uplink gw n e t).1 = gw.is_up ∧
    (receive_uplink gw n e t).2.uplinks_received =
      gw.uplinks_received ++
        [{ node_id := n, event_id := e, time := t, delivered := gw.is_up }] ∧
    (receive_uplink_legacy gw n e t).1 = gw.is_up ∧
    (receive_uplink_legacy gw n e t).2.uplinks_received =
      gw.uplinks_received ++
        [{ node_id := n, event_id := e, time := t, delivered := gw.is_up }] := by
  refine ⟨rfl, rfl, ?_, ?_⟩ <;>
    cases h : gw.is_up <;> simp [receive_uplink_legacy, h]

/-- C6: a `DetectionRecord` built by `Node._send_uplink` from an
`ImageConfidenceGenerator.analyze` confidence (the only way a record reaches
the run's detection log: `Network.report_detection` is called exactly from
`_send_uplink`, whose `confidence` argument is always a clamped `analyze`
output) satisfies `0 ≤ confidence ≤ 1` and `latency ≥ 0`, for every raw
gaussian draw and every uplink instant `now` at or after the event's creation
time (the node's logic process starts at the dispatch instant and virtual time
only moves forward). -/
theorem detection_record_invariant (node_id : String) (now : ℚ) (gw : GatewayState)
    (event : SensorEvent) (ty : EventType) (raw : ℚ) (used_p2p : Bool)
    (p2p_msgs : Nat) (h : event.time ≤ now) :
    0 ≤ (send_uplink node_id now gw event (analyze ty raw).confidence
          used_p2p p2p_msgs).1.confidence ∧
    (send_uplink node_id now gw event (analyze ty raw).confidence
      used_p2p p2p_msgs).1.confidence ≤ 1 ∧
    0 ≤ (send_uplink node_id now gw event (analyze ty raw).confidence
          used_p2p p2p_msgs).1.latency := by
  refine ⟨?_, ?_, ?_⟩
  · simp [send_uplink, analyze]
  · simp only [send_uplink, analyze]
    exact max_le (by norm_num) (min_le_left _ _)
  · simpa [send_uplink, analyze] using h

/-- Witness for `detection_record_invariant` at a concrete input. -/
theorem detection_record_invariant_witness :
    0 ≤ (send_uplink "outer_0" 5 { is_up := true, uplinks_received := [] }
          sampleEvent (analyze EventType.intruder (9/10)).confidence
          false 0).1.confidence ∧
    (send_uplink "outer_0" 5 { is_up := true, uplinks_received := [] }
      sampleEvent (analyze EventType.intruder (9/10)).confidence
      false 0).1.confidence ≤ 1 ∧
    0 ≤ (send_uplink "outer_0" 5 { is_up := true, uplinks_received := [] }
          sampleEvent (analyze EventType.intruder (9/10)).confidence
          false 0).1.latency :=
  detection_record_invariant "outer_0" 5 _ sampleEvent EventType.intruder (9/10)
    false 0 (by norm_num [sampleEvent])

/-- C10: any configuration with `event_count > 100000` is rejected by
`validate_config` ("event_count cannot exceed 100000") and `run_simulation`
returns the failure dictionary without executing a simulation. -/
theorem event_count_cap_rejected (cfg : SimulationConfig) (s : DrawStream)
    (ds : List DetectionRecord) (h : cfg.event_count > 100000) :
    "event_count cannot exceed 100000" ∈ validate_config cfg ∧
    run_simulation cfg s ds = RunResult.failure (validate_config cfg) cfg.run_id ∧
    (run_simulation cfg s ds).successFlag = false := by
  have hmem : "event_count cannot exceed 100000" ∈ validate_config cfg := by
    unfold validate_config
    rw [if_pos h]
    simp
  have hne : (validate_config cfg).isEmpty = false := by
    rcases hval : validate_config cfg with _ | ⟨a, l⟩
    · exact absurd hmem (by simp [hval])
    · simp
  refine ⟨hmem, ?_, ?_⟩ <;> simp [run_simulation, hne, RunResult.successFlag]

/-- Witness for `event_count_cap_rejected` at `event_count = 100001`. -/
theorem event_count_cap_rejected_witness :
    "event_count cannot exceed 100000" ∈
      validate_config { event_count := 100001 } ∧
    run_simulation { event_count := 100001 } zeroStream [] =
      RunResult.failure (validate_config { event_count := 100001 }) "default" ∧
    (run_simulation { event_count := 100001 } zeroStream []).successFlag = false :=
  event_count_cap_rejected { event_count := 100001 } zeroStream [] (by norm_num)

/-- C9 (counterexample): on a validation failure, the dictionary
`run_simulation` returns does not consist of the success flag and the error
list alone — it also carries `run_id` (engine.py line 78), so the claim's "no
further fields" is false already at `event_count = 0`. -/
theorem failure_payload_counterexample :
    (run_simulation { event_count := 0 } zeroStream []).keys ≠
      ["success", "errors"] := by
  norm_num [run_simulation, validate_config, RunResult.keys]

/-- C9 (amended): when validation fails, `run_simulation` returns — before any
scheduling — the failure dictionary: success flag false, the exhaustive
validation error list, and the run id (its keys are exactly `success`,
`errors`, `run_id`). -/
theorem failure_result_payload (cfg : SimulationConfig) (s : DrawStream)
    (ds : List DetectionRecord) (h : validate_config cfg ≠ []) :
    run_simulation cfg s ds = RunResult.failure (validate_config cfg) cfg.run_id ∧
    (run_simulation cfg s ds).successFlag = false ∧
    (run_simulation cfg s ds).keys = ["success", "errors", "run_id"] := by
  have hne : (validate_config cfg).isEmpty = false := by
    rcases hval : validate_config cfg with _ | ⟨a, l⟩
    · exact absurd hval h
    · simp
  refine ⟨?_, ?_, ?_⟩ <;>
    simp [run_simulation, hne, RunResult.successFlag, RunResult.keys]

/-- Witness for `failure_result_payload` at `event_count = 0`. -/
theorem failure_result_payload_witness :
    run_simulation { event_count := 0 } zeroStream [] =
      RunResult.failure (validate_config { event_count := 0 }) "default" ∧
    (run_simulation { event_count := 0 } zeroStream []).successFlag = false ∧
    (run_simulation { event_count := 0 } zeroStream []).keys =
      ["success", "errors", "run_id"] :=
  failure_result_payload { event_count := 0 } zeroStream []
    (by norm_num [validate_config])

/-- C3 (counterexample): running with `event_count = 0` does not succeed —
`validate_config` rejects it ("event_count must be at least 1") and
`run_simulation` returns the failure dictionary, so no metrics (and no counts)
are produced at all. -/
theorem empty_run_counterexample :
    run_simulation { event_count := 0 } zeroStream [] =
      RunResult.failure ["event_count must be at least 1"] "default" ∧
    (run_simulation { event_count := 0 } zeroStream []).successFlag = false := by
  constructor <;> norm_num [run_simulation, validate_config, RunResult.successFlag]

/-- C3 (amended): a run with `event_count = 0` raises no exception but fails
validation: `run_simulation` returns success flag false with the error
"event_count must be at least 1", and computes no metrics. -/
theorem empty_run_fails_validation (cfg : SimulationConfig) (s : DrawStream)
    (ds : List DetectionRecord) (h : cfg.event_count = 0) :
    "event_count must be at least 1" ∈ validate_config cfg ∧
    (run_simulation cfg s ds).successFlag = false := by
  have hmem : "event_count must be at least 1" ∈ validate_config cfg := by
    unfold validate_config
    rw [if_pos (by omega : cfg.event_count < 1)]
    simp
  have hne : (validate_config cfg).isEmpty = false := by
    rcases hval : validate_config cfg with _ | ⟨a, l⟩
    · exact absurd hmem (by simp [hval])
    · simp
  exact ⟨hmem, by simp [run_simulation, hne, RunResult.successFlag]⟩

/-- Witness for `empty_run_fails_validation` at the default configuration with
`event_count = 0`. -/
theorem empty_run_fails_validation_witness :
    "event_count must be at least 1" ∈ validate_config { event_count := 0 } ∧
    (run_simulation { event_count := 0 } zeroStream []).successFlag = false :=
  empty_run_fails_validation { event_count := 0 } zeroStream [] rfl

/-! ### C2: the workload generator -/

theorem event_generator_from_length_le (s : DrawStream) (horizon : ℚ) :
    ∀ (n k : Nat) (now : ℚ), (event_generator_from s horizon k now n).length ≤ n
  | 0, _, _ => by simp [event_generator_from]
  | n + 1, k, now => by
      by_cases hlt : now + s.interval k < horizon
      · simpa [event_generator_from, hlt] using
          event_generator_from_length_le s horizon n (k + 1) (now + s.interval k)
      · simp [event_generator_from, hlt]

theorem event_generator_from_ids (s : DrawStream) (horizon : ℚ) :
    ∀ (n k : Nat) (now : ℚ),
      (event_generator_from s horizon k now n).map (fun e => e.event_id) =
        List.range' k (event_generator_from s horizon k now n).length
  | 0, _, _ => by simp [event_generator_from]
  | n + 1, k, now => by
      by_cases hlt : now + s.interval k < horizon
      · simp only [event_generator_from, hlt, if_true, List.map_cons, List.length_cons,
          List.range'_succ]
        exact congrArg _ (event_generator_from_ids s horizon n (k + 1) (now + s.interval k))
      · simp [event_generator_from, hlt]

theorem sumIntervalsFrom_nonneg (s : DrawStream) (h : ∀ i, 0 ≤ s.interval i) :
    ∀ (n k : Nat), 0 ≤ sumIntervalsFrom s k n
  | 0, _ => le_refl 0
  | n + 1, k => by
      have := sumIntervalsFrom_nonneg s h n (k + 1)
      have := h k
      simp only [sumIntervalsFrom]
      linarith

theorem event_generator_from_full (s : DrawStream) (horizon : ℚ)
    (h : ∀ i, 0 ≤ s.interval i) :
    ∀ (n k : Nat) (now : ℚ), now + sumIntervalsFrom s k n < horizon →
      (event_generator_from s horizon k now n).length = n
  | 0, _, _, _ => by simp [event_generator_from]
  | n + 1, k, now, hsum => by
      have hrest : 0 ≤ sumIntervalsFrom s (k + 1) n := sumIntervalsFrom_nonneg s h n (k + 1)
      have hsum₂ : (now + s.interval k) + sumIntervalsFrom s (k + 1) n < horizon := by
        simp only [sumIntervalsFrom] at hsum
        linarith
      have hlt : now + s.interval k < horizon := by linarith
      simp only [event_generator_from, hlt, if_true, List.length_cons]
      exact congrArg Nat.succ
        (event_generator_from_full s horizon h n (k + 1) (now + s.interval k) hsum₂)

/-- C2 (amended): the Workload Generator emits a prefix of the configured
workload: the events it appends to the run's event log carry the sequential
ids `0, 1, ...`; it never emits more than `event_count` events; and it emits
exactly `event_count` events whenever the inter-arrival draws (all
nonnegative, as `random.expovariate` draws are) sum to less than the horizon —
but not for every draw sequence, see `workload_generator_shortfall`. -/
theorem workload_generator_sequential_prefix (s : DrawStream) (count : Nat)
    (horizon : ℚ) :
    (event_generator s count horizon).map (fun e => e.event_id) =
      List.range (event_generator s count horizon).length ∧
    (event_generator s count horizon).length ≤ count ∧
    ((∀ i, 0 ≤ s.interval i) → sumIntervalsFrom s 0 count < horizon →
      (event_generator s count horizon).length = count) := by
  refine ⟨?_, ?_, fun h hsum => ?_⟩
  · rw [List.range_eq_range']
    simpa [event_generator] using event_generator_from_ids s horizon count 0 0
  · exact event_generator_from_length_le s horizon count 0 0
  · exact event_generator_from_full s horizon h count 0 0 (by simpa using hsum)

/-- Witness for `workload_generator_sequential_prefix`: with all-zero
inter-arrival draws and `count = 3`, the generator emits exactly 3 events with
ids 0, 1, 2. -/
theorem workload_generator_sequential_prefix_witness :
    (event_generator zeroStream 3 208).map (fun e => e.event_id) =
      List.range (event_generator zeroStream 3 208).length ∧
    (event_generator zeroStream 3 208).length ≤ 3 ∧
    ((∀ i, 0 ≤ zeroStream.interval i) → sumIntervalsFrom zeroStream 0 3 < 208 →
      (event_generator zeroStream 3 208).length = 3) :=
  workload_generator_sequential_prefix zeroStream 3 208

/-- C2 (counterexample): the default configuration with `event_count = 1`
passes validation, yet under the draw sequence whose first inter-arrival draw
is 300 the run (horizon `1 * 8 + 200 = 208`) generates no event at all — the
generator's wake-up lands past the horizon, so it does not produce exactly
`event_count` events for every random-draw sequence. -/
theorem workload_generator_shortfall :
    validate_config { event_count := 1 } = [] ∧
    event_generator longGapStream 1 ((1 : ℚ) * 8 + 200) = [] ∧
    run_simulation { event_count := 1 } longGapStream [] =
      RunResult.success "default" (compute_metrics [] []) ∧
    (compute_metrics [] []).total_events = 0 := by
  refine ⟨by norm_num [validate_config], ?_, ?_, ?_⟩
  · norm_num [event_generator, event_generator_from, longGapStream]
  · norm_num [run_simulation, validate_config, event_generator,
      event_generator_from, longGapStream]
  · rfl

/-! ### C4 / C5: the metrics dedup and the rates -/

theorem dedup_sublist : ∀ (l : List DetectionRecord) (seen : List Nat),
    List.Sublist (dedupFirstByEventId l seen) l
  | [], _ => List.Sublist.refl []
  | d :: rest, seen => by
      by_cases hmem : d.event_id ∈ seen
      · simpa [dedupFirstByEventId, hmem] using (dedup_sublist rest seen).cons d
      · simpa [dedupFirstByEventId, hmem] using
          (dedup_sublist rest (d.event_id :: seen)).cons₂ d

theorem dedup_filter_of_mem_seen :
    ∀ (l : List DetectionRecord) (seen : List Nat) (id : Nat), id ∈ seen →
      (dedupFirstByEventId l seen).filter (fun d => d.event_id == id) = []
  | [], _, _, _ => rfl
  | d :: rest, seen, id, hid => by
      by_cases hmem : d.event_id ∈ seen
      · simpa [dedupFirstByEventId, hmem] using
          dedup_filter_of_mem_seen rest seen id hid
      · have hne : ¬ d.event_id = id := fun h => hmem (h ▸ hid)
        simp only [dedupFirstByEventId, hmem, if_neg, ite_false]
        rw [List.filter_cons_of_neg (by simpa using hne)]
        exact dedup_filter_of_mem_seen rest (d.event_id :: seen) id
          (List.mem_cons_of_mem _ hid)

theorem dedup_filter_of_not_seen :
    ∀ (l : List DetectionRecord) (seen : List Nat) (id : Nat), id ∉ seen →
      (dedupFirstByEventId l seen).filter (fun d => d.event_id == id) =
        (l.filter (fun d => d.event_id == id)).take 1
  | [], _, _, _ => rfl
  | d :: rest, seen, id, hid => by
      by_cases heq : d.event_id = id
      · have hmem : d.event_id ∉ seen := heq ▸ hid
        simp only [dedupFirstByEventId, hmem, ite_false]
        rw [List.filter_cons_of_pos (by simpa using heq),
          List.filter_cons_of_pos (by simpa using heq)]
        simp only [List.take_succ_cons, List.take_zero]
        rw [dedup_filter_of_mem_seen rest (d.event_id :: seen) id
          (heq ▸ List.mem_cons_self _ _)]
      · by_cases hmem : d.event_id ∈ seen
        · simpa [dedupFirstByEventId, hmem, List.filter_cons_of_neg,
            heq] using dedup_filter_of_not_seen rest seen id hid
        · have hid₂ : id ∉ d.event_id :: seen := by
            simp only [List.mem_cons]
            rintro (h | h)
            · exact heq h.symm
            · exact hid h
          simp only [dedupFirstByEventId, hmem, ite_false]
          rw [List.filter_cons_of_neg (by simpa using heq),
            List.filter_cons_of_neg (by simpa using heq)]
          exact dedup_filter_of_not_seen rest (d.event_id :: seen) id hid₂

theorem dedup_ids_nodup :
    ∀ (l : List DetectionRecord) (seen : List Nat),
      ((dedupFirstByEventId l seen).map (fun d => d.event_id)).Nodup ∧
      ∀ d ∈ dedupFirstByEventId l seen, d.event_id ∉ seen
  | [], _ => ⟨List.nodup_nil, by simp [dedupFirstByEventId]⟩
  | d :: rest, seen => by
      by_cases hmem : d.event_id ∈ seen
      · simpa [dedupFirstByEventId, hmem] using dedup_ids_nodup rest seen
      · obtain ⟨ih₁, ih₂⟩ := dedup_ids_nodup rest (d.event_id :: seen)
        simp only [dedupFirstByEventId, hmem, ite_false, List.map_cons]
        constructor
        · refine List.nodup_cons.mpr ⟨?_, ih₁⟩
          intro hin
          obtain ⟨x, hx, hxe⟩ := List.mem_map.mp hin
          exact (ih₂ x hx) (hxe ▸ List.mem_cons_self _ _)
        · intro x hx
          rcases List.mem_cons.mp hx with h | h
          · exact h ▸ hmem
          · exact fun hc => (ih₂ x h) (List.mem_cons_of_mem _ hc)

theorem sort_perm (ds : List DetectionRecord) : List.Perm (sortByDetectionTime ds) ds :=
  List.mergeSort_perm ds _

theorem sort_pairwise (ds : List DetectionRecord) :
    (sortByDetectionTime ds).Pairwise
      (fun a b => a.detection_time ≤ b.detection_time) := by
  have h := @List.sorted_mergeSort DetectionRecord
    (fun a b => decide (a.detection_time ≤ b.detection_time))
    (fun a b c hab hbc => by
      simp only [decide_eq_true_eq] at *
      exact le_trans hab hbc)
    (fun a b => by
      simp only [Bool.or_eq_true, decide_eq_true_eq]
      exact le_total _ _)
    ds
  exact h.imp (fun {a b} hab => by simpa using hab)

theorem mem_unique_detections_mem (ds : List DetectionRecord) :
    ∀ r ∈ unique_detections ds, r ∈ ds := fun _ hr =>
  (sort_perm ds).mem_iff.mp ((dedup_sublist (sortByDetectionTime ds) []).mem hr)

/-- C4: in `compute_metrics`, any `event_id` with at least one
`DetectionRecord` contributes exactly one record to the true/false-positive
tallies (`tp_unique`/`fp_unique`), namely a record with the earliest
`detection_time` among that event id's records. -/
theorem dedup_unique_earliest (ds : List DetectionRecord) (id : Nat)
    (h : ∃ d ∈ ds, d.event_id = id) :
    ∃ r, r ∈ ds ∧ r.event_id = id ∧
      (unique_detections ds).filter (fun d => d.event_id == id) = [r] ∧
      ((tp_unique ds).filter (fun d => d.event_id == id)).length +
        ((fp_unique ds).filter (fun d => d.event_id == id)).length = 1 ∧
      ∀ d ∈ ds, d.event_id = id → r.detection_time ≤ d.detection_time := by
  obtain ⟨d₀, hd₀, hid₀⟩ := h
  have hfilter : (unique_detections ds).filter (fun d => d.event_id == id) =
      ((sortByDetectionTime ds).filter (fun d => d.event_id == id)).take 1 :=
    dedup_filter_of_not_seen (sortByDetectionTime ds) [] id (by simp)
  have hd₀s : d₀ ∈ (sortByDetectionTime ds).filter (fun d => d.event_id == id) :=
    List.mem_filter.mpr ⟨(sort_perm ds).mem_iff.mpr hd₀, by simpa using hid₀⟩
  rcases hfil : (sortByDetectionTime ds).filter (fun d => d.event_id == id) with
    _ | ⟨r, rs⟩
  · exact absurd (hfil ▸ hd₀s) (List.not_mem_nil d₀)
  have hruniq : (unique_detections ds).filter (fun d => d.event_id == id) = [r] := by
    rw [hfilter, hfil, List.take_succ_cons, List.take_zero]
  have hrmem : r ∈ (sortByDetectionTime ds).filter (fun d => d.event_id == id) :=
    hfil ▸ List.mem_cons_self r rs
  have hrds : r ∈ ds := (sort_perm ds).mem_iff.mp (List.mem_of_mem_filter hrmem)
  have hrid : r.event_id = id := by simpa using List.of_mem_filter hrmem
  refine ⟨r, hrds, hrid, hruniq, ?_, ?_⟩
  · have hcomm : ∀ q : DetectionRecord → Bool,
        ((unique_detections ds).filter q).filter (fun d => d.event_id == id) =
          ((unique_detections ds).filter (fun d => d.event_id == id)).filter q := by
      intro q
      rw [List.filter_filter, List.filter_filter]
      exact List.filter_congr fun a _ => Bool.and_comm _ _
    rw [tp_unique, fp_unique, hcomm, hcomm, hruniq]
    cases hr : r.is_true_positive <;> simp [hr]
  · intro d hd hdid
    have hds : d ∈ (sortByDetectionTime ds).filter (fun d => d.event_id == id) :=
      List.mem_filter.mpr ⟨(sort_perm ds).mem_iff.mpr hd, by simpa using hdid⟩
    rw [hfil] at hds
    rcases List.mem_cons.mp hds with h | h
    · exact h ▸ le_refl _
    · have hpw : ((sortByDetectionTime ds).filter
          (fun d => d.event_id == id)).Pairwise
            (fun a b => a.detection_time ≤ b.detection_time) :=
        (sort_pairwise ds).filter _
      rw [hfil] at hpw
      exact (List.pairwise_cons.mp hpw).1 d h

/-- Witness for `dedup_unique_earliest`: of the two detections of event 5,
the dedup keeps exactly one and it is the earlier one. -/
theorem dedup_unique_earliest_witness :
    ∃ r, r ∈ [sampleDetLate, sampleDetEarly] ∧ r.event_id = 5 ∧
      (unique_detections [sampleDetLate, sampleDetEarly]).filter
        (fun d => d.event_id == 5) = [r] ∧
      ((tp_unique [sampleDetLate, sampleDetEarly]).filter
          (fun d => d.event_id == 5)).length +
        ((fp_unique [sampleDetLate, sampleDetEarly]).filter
          (fun d => d.event_id == 5)).length = 1 ∧
      ∀ d ∈ [sampleDetLate, sampleDetEarly], d.event_id = 5 →
        r.detection_time ≤ d.detection_time :=
  dedup_unique_earliest [sampleDetLate, sampleDetEarly] 5
    ⟨sampleDetLate, by simp, rfl⟩

theorem length_filter_add_length_filter_not {α : Type} (l : List α) (p : α → Bool) :
    (l.filter p).length + (l.filter fun a => !(p a)).length = l.length := by
  induction l with
  | nil => rfl
  | cons a t ih => cases hpa : p a <;> simp [List.filter_cons, hpa] <;> omega

theorem nodup_subset_length_le {A B : List Nat} (hA : A.Nodup)
    (hsub : ∀ x ∈ A, x ∈ B) : A.length ≤ B.length :=
  calc A.length = A.toFinset.card := (List.toFinset_card_of_nodup hA).symm
    _ ≤ B.toFinset.card := Finset.card_le_card fun x hx => by
        simp only [List.mem_toFinset] at hx ⊢
        exact hsub x hx
    _ ≤ B.length := B.toFinset_card_le

theorem unique_detections_ids_nodup (ds : List DetectionRecord) :
    ((unique_detections ds).map (fun d => d.event_id)).Nodup :=
  (dedup_ids_nodup (sortByDetectionTime ds) []).1

theorem pyRound4_zero : pyRound4 0 = 0 := by
  norm_num [pyRound4]

theorem pyRound4_nonneg {q : ℚ} (h : 0 ≤ q) : 0 ≤ pyRound4 q := by
  have h₁ : (0 : ℤ) ≤ round (q * 10000) := by
    rw [round_eq]
    rw [Int.le_floor]
    push_cast
    linarith
  unfold pyRound4
  positivity

theorem pyRound4_le_one {q : ℚ} (h : q ≤ 1) : pyRound4 q ≤ 1 := by
  have h₁ : round (q * 10000) ≤ 10000 := by
    rw [round_eq]
    have h₂ : q * 10000 + 1 / 2 ≤ (10000 : ℚ) + 1 / 2 := by linarith
    calc ⌊q * 10000 + 1 / 2⌋ ≤ ⌊(10000 : ℚ) + 1 / 2⌋ := Int.floor_le_floor h₂
      _ = 10000 := by
          rw [show ((10000 : ℚ) + 1 / 2) = ((10000 : ℤ) : ℚ) + 1 / 2 by norm_num,
            Int.floor_int_add]
          norm_num
  unfold pyRound4
  rw [div_le_one (by norm_num)]
  exact_mod_cast h₁

theorem compute_metrics_detection_rate (events : List SensorEvent)
    (detections : List DetectionRecord) :
    (compute_metrics events detections).detection_rate =
      pyRound4 (if total_intruders_of events > 0 then
        ((tp_unique detections).length : ℚ) / (total_intruders_of events : ℚ)
      else 0) := rfl

theorem compute_metrics_fp_rate (events : List SensorEvent)
    (detections : List DetectionRecord) :
    (compute_metrics events detections).false_positive_rate =
      pyRound4 (if total_noise_of events > 0 then
        ((fp_unique detections).length : ℚ) / (total_noise_of events : ℚ)
      else 0) := rfl

theorem tp_unique_length_le (events : List SensorEvent)
    (detections : List DetectionRecord)
    (hcons : ∀ d ∈ detections, ∃ e ∈ events, e.event_id = d.event_id ∧
      d.is_true_positive = (e.event_type == EventType.intruder)) :
    (tp_unique detections).length ≤ total_intruders_of events := by
  have hnodup : ((tp_unique detections).map (fun d => d.event_id)).Nodup :=
    ((List.filter_sublist _).map _).nodup (unique_detections_ids_nodup detections)
  have hsub : ∀ i ∈ (tp_unique detections).map (fun d => d.event_id),
      i ∈ (events.filter fun e => e.event_type == EventType.intruder).map
        (fun e => e.event_id) := by
    intro i hi
    obtain ⟨r, hr, hie⟩ := List.mem_map.mp hi
    have hrtp : r.is_true_positive = true := by simpa using List.of_mem_filter hr
    have hrds : r ∈ detections :=
      mem_unique_detections_mem detections r (List.mem_of_mem_filter hr)
    obtain ⟨e, he, heid, htp⟩ := hcons r hrds
    refine List.mem_map.mpr ⟨e, List.mem_filter.mpr ⟨he, ?_⟩, heid.symm ▸ hie⟩
    rw [← htp, hrtp]
  have := nodup_subset_length_le hnodup hsub
  simpa [total_intruders_of] using this

theorem fp_unique_length_le (events : List SensorEvent)
    (detections : List DetectionRecord)
    (hcons : ∀ d ∈ detections, ∃ e ∈ events, e.event_id = d.event_id ∧
      d.is_true_positive = (e.event_type == EventType.intruder)) :
    (fp_unique detections).length ≤ total_noise_of events := by
  have hnodup : ((fp_unique detections).map (fun d => d.event_id)).Nodup :=
    ((List.filter_sublist _).map _).nodup (unique_detections_ids_nodup detections)
  have hsub : ∀ i ∈ (fp_unique detections).map (fun d => d.event_id),
      i ∈ (events.filter fun e => !(e.event_type == EventType.intruder)).map
        (fun e => e.event_id) := by
    intro i hi
    obtain ⟨r, hr, hie⟩ := List.mem_map.mp hi
    have hrtp : r.is_true_positive = false := by
      have := List.of_mem_filter hr
      simpa using this
    have hrds : r ∈ detections :=
      mem_unique_detections_mem detections r (List.mem_of_mem_filter hr)
    obtain ⟨e, he, heid, htp⟩ := hcons r hrds
    refine List.mem_map.mpr ⟨e, List.mem_filter.mpr ⟨he, ?_⟩, heid.symm ▸ hie⟩
    rw [← htp, hrtp]
    rfl
  have hlen := nodup_subset_length_le hnodup hsub
  have hsplit := length_filter_add_length_filter_not events
    (fun e => e.event_type == EventType.intruder)
  simp only [List.length_map] at hlen
  unfold total_noise_of total_intruders_of
  omega

/-- C5: `compute_metrics` returns `detection_rate` and `false_positive_rate`
in `[0, 1]` for every event/detection log a run can produce (every detection
refers to some logged event and its `is_true_positive` flag agrees with that
event's kind — exactly how `_send_uplink` builds records from dispatched
events); with zero intruder (resp. noise) events the corresponding rate is
defined to be `0.0` by the guard, so no division by zero ever occurs. -/
theorem rates_bounded (events : List SensorEvent) (detections : List DetectionRecord)
    (hcons : ∀ d ∈ detections, ∃ e ∈ events, e.event_id = d.event_id ∧
      d.is_true_positive = (e.event_type == EventType.intruder)) :
    0 ≤ (compute_metrics events detections).detection_rate ∧
    (compute_metrics events detections).detection_rate ≤ 1 ∧
    0 ≤ (compute_metrics events detections).false_positive_rate ∧
    (compute_metrics events detections).false_positive_rate ≤ 1 ∧
    (total_intruders_of events = 0 →
      (compute_metrics events detections).detection_rate = 0) ∧
    (total_noise_of events = 0 →
      (compute_metrics events detections).false_positive_rate = 0) := by
  have htp := tp_unique_length_le events detections hcons
  have hfp := fp_unique_length_le events detections hcons
  rw [compute_metrics_detection_rate, compute_metrics_fp_rate]
  refine ⟨?_, ?_, ?_, ?_, ?_, ?_⟩
  · refine pyRound4_nonneg ?_
    split
    · positivity
    · exact le_refl 0
  · refine pyRound4_le_one ?_
    split
    · rename_i hpos
      rw [div_le_one (by exact_mod_cast hpos)]
      exact_mod_cast htp
    · norm_num
  · refine pyRound4_nonneg ?_
    split
    · positivity
    · exact le_refl 0
  · refine pyRound4_le_one ?_
    split
    · rename_i hpos
      rw [div_le_one (by exact_mod_cast hpos)]
      exact_mod_cast hfp
    · norm_num
  · intro hzero
    rw [if_neg (by omega), pyRound4_zero]
  · intro hzero
    rw [if_neg (by omega), pyRound4_zero]

/-- Witness for `rates_bounded`: one intruder event, detected twice. -/
theorem rates_bounded_witness :
    0 ≤ (compute_metrics [sampleIntruderEvent]
          [sampleDetLate, sampleDetEarly]).detection_rate ∧
    (compute_metrics [sampleIntruderEvent]
      [sampleDetLate, sampleDetEarly]).detection_rate ≤ 1 ∧
    0 ≤ (compute_metrics [sampleIntruderEvent]
          [sampleDetLate, sampleDetEarly]).false_positive_rate ∧
    (compute_metrics [sampleIntruderEvent]
      [sampleDetLate, sampleDetEarly]).false_positive_rate ≤ 1 ∧
    (total_intruders_of [sampleIntruderEvent] = 0 →
      (compute_metrics [sampleIntruderEvent]
        [sampleDetLate, sampleDetEarly]).detection_rate = 0) ∧
    (total_noise_of [sampleIntruderEvent] = 0 →
      (compute_metrics [sampleIntruderEvent]
        [sampleDetLate, sampleDetEarly]).false_positive_rate = 0) :=
  rates_bounded [sampleIntruderEvent] [sampleDetLate, sampleDetEarly]
    (by
      intro d hd
      rcases List.mem_cons.mp hd with h | h
      · exact ⟨sampleIntruderEvent, by simp, by rw [h]; rfl, by rw [h]; rfl⟩
      · rcases List.mem_cons.mp h with h₂ | h₂
        · exact ⟨sampleIntruderEvent, by simp, by rw [h₂]; rfl, by rw [h₂]; rfl⟩
        · exact absurd h₂ (List.not_mem_nil d))

/-! ### C1 / C7: the Tier-2 verification wait and the neighbor topology -/

theorem neighborsOf_base : ∀ (l : List (String × ℚ × ℚ)) (a : String),
    neighborsOf (l.map fun p => (p.1, ([] : List String))) a = []
  | [], _ => rfl
  | p :: rest, a => by
      by_cases h : p.1 = a
      · simp [neighborsOf, List.find?_cons, h]
      · simpa [neighborsOf, List.find?_cons, h] using neighborsOf_base rest a

theorem hasKey_base : ∀ (l : List (String × ℚ × ℚ)) (a : String),
    hasKey (l.map fun p => (p.1, ([] : List String))) a = true ↔
      a ∈ l.map (fun p => p.1)
  | [], a => by simp [hasKey]
  | p :: rest, a => by
      by_cases h : p.1 = a
      · simp [hasKey, List.find?_cons, h]
      · simpa [hasKey, List.find?_cons, h, Ne.symm h] using hasKey_base rest a

theorem hasKey_addNeighbor (m : List (String × List String)) (k v a : String) :
    hasKey (addNeighbor m k v) a = hasKey m a := by
  induction m with
  | nil => rfl
  | cons e rest ih =>
      by_cases hek : e.1 = k <;> by_cases hea : e.1 = a <;>
        simp_all [hasKey, addNeighbor, List.find?_cons, hek, hea]

theorem neighborsOf_addNeighbor (m : List (String × List String)) (k v a : String) :
    neighborsOf (addNeighbor m k v) a =
      if a = k ∧ hasKey m a = true then neighborsOf m a ++ [v]
      else neighborsOf m a := by
  induction m with
  | nil => simp [neighborsOf, addNeighbor, hasKey]
  | cons e rest ih =>
      by_cases hek : e.1 = k <;> by_cases hea : e.1 = a
      · have hak : a = k := hea ▸ hek
        simp [neighborsOf, addNeighbor, hasKey, List.find?_cons, hek, hea, hak]
      · have hne : ¬ a = k → True := fun _ => trivial
        simp only [addNeighbor, List.map_cons, if_pos hek]
        simp only [neighborsOf, hasKey, List.find?_cons]
        have hba : ((e.1, e.2 ++ [v]).1 == a) = false := by simpa using hea
        have hba₂ : (e.1 == a) = false := by simpa using hea
        simp only [hba, hba₂]
        simpa [neighborsOf, hasKey, addNeighbor] using ih
      · have hak : ¬ a = k := fun h => hek (hea ▸ h.symm ▸ rfl)
        simp [neighborsOf, addNeighbor, hasKey, List.find?_cons, hek, hea, hak]
      · simp only [addNeighbor, List.map_cons, if_neg hek]
        simp only [neighborsOf, hasKey, List.find?_cons]
        have hba : (e.1 == a) = false := by simpa using hea
        simp only [hba]
        simpa [neighborsOf, hasKey, addNeighbor] using ih

theorem mem_neighborsOf_applyPair (m : List (String × List String))
    (pr : String × String) (a b : String) :
    b ∈ neighborsOf (applyPair m pr) a ↔
      b ∈ neighborsOf m a ∨
        (hasKey m a = true ∧ ((a, b) = pr ∨ (b, a) = pr)) := by
  obtain ⟨x, y⟩ := pr
  unfold applyPair
  rw [neighborsOf_addNeighbor, hasKey_addNeighbor, neighborsOf_addNeighbor]
  simp only [Prod.mk.injEq]
  split_ifs <;> simp [List.mem_append] <;> tauto

theorem hasKey_applyPair (m : List (String × List String)) (pr : String × String)
    (a : String) : hasKey (applyPair m pr) a = hasKey m a := by
  unfold applyPair
  rw [hasKey_addNeighbor, hasKey_addNeighbor]

theorem mem_neighborsOf_foldl :
    ∀ (ps : List (String × String)) (m : List (String × List String)) (a b : String),
      b ∈ neighborsOf (ps.foldl applyPair m) a ↔
        b ∈ neighborsOf m a ∨
          (hasKey m a = true ∧ ((a, b) ∈ ps ∨ (b, a) ∈ ps))
  | [], m, a, b => by simp
  | p :: ps, m, a, b => by
      rw [List.foldl_cons, mem_neighborsOf_foldl ps (applyPair m p) a b,
        mem_neighborsOf_applyPair, hasKey_applyPair]
      simp only [List.mem_cons]
      tauto

/-- Membership in a `compute_neighbors` adjacency list, reduced to the close
pairs the double loop visited. -/
theorem compute_neighbors_mem (l : List (String × ℚ × ℚ)) (range : ℚ)
    (a b : String) :
    b ∈ neighborsOf (compute_neighbors l range) a ↔
      hasKey (l.map fun p => (p.1, ([] : List String))) a = true ∧
        ((a, b) ∈ closePairs range l ∨ (b, a) ∈ closePairs range l) := by
  unfold compute_neighbors
  rw [mem_neighborsOf_foldl, neighborsOf_base]
  simp

/-- C7: a node `a` with an empty neighbor set that enters Tier 2 never
receives a `VerifyResp` — by the symmetry of `compute_neighbors`, no other
node has `a` in its neighbor list, and every `p2p_broadcast` schedules
deliveries only to the sender's neighbors, while `a`'s own broadcast reaches
nobody — so its verification wait holds only the timeout wake-up: the wait
always times out, the handle is never triggered, and no `DetectionRecord` is
produced for the event. -/
theorem isolated_node_times_out (l : List (String × ℚ × ℚ)) (range : ℚ)
    (a : String) (hkey : a ∈ l.map (fun p => p.1))
    (hempty : neighborsOf (compute_neighbors l range) a = [])
    (nodeIds : List String) (lost : String → Bool) (node_id : String)
    (ev : SensorEvent) (conf : ℚ) (gwUp : Bool) (t₀ dur : ℚ) :
    (∀ b, a ∉ neighborsOf (compute_neighbors l range) b) ∧
    p2p_recipients (neighborsOf (compute_neighbors l range) a) nodeIds lost = [] ∧
    (runVerif node_id ev conf gwUp 3 (isolatedState t₀ dur)).records = [] ∧
    (runVerif node_id ev conf gwUp 3 (isolatedState t₀ dur)).handleTriggered = false ∧
    (runVerif node_id ev conf gwUp 3 (isolatedState t₀ dur)).pending_confirmations
      = 0 := by
  have hbase : hasKey (l.map fun p => (p.1, ([] : List String))) a = true :=
    (hasKey_base l a).mpr hkey
  have hnopair : ∀ x, ¬ ((a, x) ∈ closePairs range l ∨ (x, a) ∈ closePairs range l) := by
    intro x hx
    have : x ∈ neighborsOf (compute_neighbors l range) a :=
      (compute_neighbors_mem l range a x).mpr ⟨hbase, hx⟩
    rw [hempty] at this
    exact List.not_mem_nil x this
  refine ⟨?_, ?_, ?_, ?_, ?_⟩
  · intro b hmem
    obtain ⟨-, hpair⟩ := (compute_neighbors_mem l range b a).mp hmem
    exact hnopair b hpair.symm
  · rw [hempty]; rfl
  · rfl
  · rfl
  · rfl

/-- Witness for `isolated_node_times_out` on a two-node topology whose nodes
are 100 m apart with a 30 m P2P range. -/
theorem isolated_node_times_out_witness :
    (∀ b, "outer_0" ∉ neighborsOf
      (compute_neighbors [("outer_0", 0, 0), ("outer_1", 100, 0)] 30) b) ∧
    p2p_recipients
      (neighborsOf (compute_neighbors [("outer_0", 0, 0), ("outer_1", 100, 0)] 30)
        "outer_0") ["outer_0", "outer_1"] (fun _ => false) = [] ∧
    (runVerif "outer_0" sampleEvent (3/4) true 3 (isolatedState 1 3)).records = [] ∧
    (runVerif "outer_0" sampleEvent (3/4) true 3
      (isolatedState 1 3)).handleTriggered = false ∧
    (runVerif "outer_0" sampleEvent (3/4) true 3
      (isolatedState 1 3)).pending_confirmations = 0 :=
  isolated_node_times_out [("outer_0", 0, 0), ("outer_1", 100, 0)] 30 "outer_0"
    (by simp)
    (by norm_num [compute_neighbors, closePairs, withinRange, neighborsOf,
      List.find?_cons])
    ["outer_0", "outer_1"] (fun _ => false) "outer_0" sampleEvent (3/4) true 1 3

/-- C1: a Tier-2 node suspended in its verification wait whose handle is
triggered by a `VERIFY_RESP` delivery at exactly the virtual time `T` the
verification timeout fires — in either FIFO order of the two wake-ups — ends
with the event winning: the resumed protocol sees the triggered handle and
escalates to uplink with `used_p2p = true`, producing exactly one detection
record; the silent-drop (timeout) outcome never occurs. -/
theorem verification_tie_event_wins (cfg : SimulationConfig) (node_id : String)
    (ev : SensorEvent) (conf : ℚ) (gwUp : Bool) (T : ℚ) (timeoutFirst : Bool)
    (hver : cfg.verify_threshold ≤ conf) (hconf : conf < cfg.confirm_threshold) :
    tier_decision cfg conf = TierDecision.verify ∧
    (runVerif node_id ev conf gwUp 5 (tieState T timeoutFirst)).records =
      [verifiedUplinkRecord node_id ev conf gwUp T] ∧
    (verifiedUplinkRecord node_id ev conf gwUp T).used_p2p = true ∧
    (runVerif node_id ev conf gwUp 5 (tieState T timeoutFirst)).handleTriggered
      = true := by
  have hd₁ : decide (T < T) = false := by simp
  have hd₂ : decide (T = T) = true := by simp
  refine ⟨?_, ?_, rfl, ?_⟩
  · rw [tier_decision, if_neg (not_le.mpr hconf), if_pos hver]
  · cases timeoutFirst <;>
      simp [runVerif, stepVerif, popMin, execVerifAction, tieState, entryLE,
        hd₁, hd₂]
  · cases timeoutFirst <;>
      simp [runVerif, stepVerif, popMin, execVerifAction, tieState, entryLE,
        hd₁, hd₂]

/-- Witness for `verification_tie_event_wins` with the default thresholds,
confidence 3/4 and tie time `T = 10`. -/
theorem verification_tie_event_wins_witness :
    tier_decision {} (3/4) = TierDecision.verify ∧
    (runVerif "outer_0" sampleEvent (3/4) true 5 (tieState 10 true)).records =
      [verifiedUplinkRecord "outer_0" sampleEvent (3/4) true 10] ∧
    (verifiedUplinkRecord "outer_0" sampleEvent (3/4) true 10).used_p2p = true ∧
    (runVerif "outer_0" sampleEvent (3/4) true 5
      (tieState 10 true)).handleTriggered = true :=
  verification_tie_event_wins {} "outer_0" sampleEvent (3/4) true 10 true
    (by norm_num) (by norm_num)

end LiveInLabs
